import Mathlib

/-!
Verification of the restheart-cli process-lifecycle core.

Shallow embedding of the lifecycle and watch-orchestration code:
`src/lib/utils.js` (checkPort), `src/lib/process-manager.js`
(ProcessManager: kill / isRunning / checkAndKill / onlyPrintConfig /
parseConfigPath / getHostAndPortFromConfig / run), `src/lib/watcher.js`
(Watcher.watchFiles debounce state machine, Builder.build / deploy failure
paths) and `src/lib/cli.js` (the run command dispatch).

External effects are parameters: the TCP network is an oracle saying which
connection attempts succeed, the OS process table is a list, signal delivery
is an oracle, the filesystem is a map from paths to file contents.
JavaScript exceptions and process exits are modelled explicitly with an
`ERes` result type: `thrown` for an exception propagating out of a block,
`exited` for `process.exit` / `shell.exit` (which bypasses catch/finally).
-/

/-! ## Character and string helpers (JS regex / split / includes semantics) -/

/-- Whitespace as matched by the regex class in the flag patterns. -/
def isWsChar (c : Char) : Bool :=
  c == ' ' || c == '\t' || c == '\n' || c == '\r'

/-- Does the JS regex alternative match starting at the current position?
The alternative has the shape boundary-dash-flag-boundary, i.e. the
character before the position was whitespace (or the string start), the
position holds a dash then the flag letter, and the next character is
whitespace (or the string end). -/
def flagHere (f : Char) (atBoundary : Bool) : List Char → Bool
  | '-' :: c :: rest =>
    atBoundary && c == f &&
      (match rest with
       | [] => true
       | d :: _ => isWsChar d)
  | _ => false

/-- Scan the whole string for a match of the boundary-delimited flag. -/
def flagScan (f : Char) : Bool → List Char → Bool
  | _, [] => false
  | atBoundary, c :: rest =>
    flagHere f atBoundary (c :: rest) || flagScan f (isWsChar c) rest

/-- Embeds ProcessManager.onlyPrintConfig (src/lib/process-manager.js):
the regex test for a whitespace-delimited -t, -c or -v flag among the
trailing RESTHeart options. -/
def onlyPrintConfig (restheartOptions : String) : Bool :=
  flagScan 't' true restheartOptions.data ||
  flagScan 'c' true restheartOptions.data ||
  flagScan 'v' true restheartOptions.data

/-- Splitter used to embed the trim-then-split-on-whitespace tokenisation in
ProcessManager.parseConfigPath. -/
def splitWsAux : List Char → List Char → List String
  | [], [] => []
  | [], cur => [String.mk cur.reverse]
  | c :: rest, cur =>
    if isWsChar c then
      match cur with
      | [] => splitWsAux rest []
      | _ => String.mk cur.reverse :: splitWsAux rest []
    else splitWsAux rest (c :: cur)

/-- Whitespace tokenisation of an options string. -/
def splitWs (s : String) : List String :=
  splitWsAux s.data []

/-- Does the pattern occur at the head of the list? -/
def charsMatchAt : List Char → List Char → Bool
  | _, [] => true
  | [], _ :: _ => false
  | c :: s, p :: ps => c == p && charsMatchAt s ps

/-- Does the pattern occur anywhere in the list? -/
def charsContain (pat : List Char) : List Char → Bool
  | [] => charsMatchAt [] pat
  | c :: rest => charsMatchAt (c :: rest) pat || charsContain pat rest

/-- Embeds the JS String.includes substring test used by the kill filter. -/
def strIncludes (s pat : String) : Bool :=
  charsContain pat.data s.data

/-- Embeds JS String.slice with a negative index, as in the startup-failure
log surfacing: the last n characters, or the whole string when shorter. -/
def sliceLast (n : Nat) (s : String) : String :=
  String.mk (s.data.drop (s.data.length - n))

/-! ## Exceptions and process exits -/

/-- Result of running a JS block: normal completion, an exception
propagating out, or a process exit (shell.exit / ErrorHandler with
exitProcess true), which bypasses catch and finally. -/
inductive ERes (α : Type)
  | ok (a : α)
  | thrown (msg : String)
  | exited (code : Nat)
  deriving DecidableEq

/-- Sequencing of JS statements: an exception or an exit short-circuits. -/
def ERes.bind {α β : Type} : ERes α → (α → ERes β) → ERes β
  | .ok a, f => f a
  | .thrown m, _ => .thrown m
  | .exited c, _ => .exited c

/-- Embeds ErrorHandler.handleError: log the message, then exit the process
when exitProcess is set, else return normally. -/
def handleError (message : String) (exitProcess : Bool) (log : List String) :
    List String × ERes Unit :=
  (log ++ [message], if exitProcess then .exited 1 else .ok ())

/-! ## Liveness prober (src/lib/utils.js checkPort, ProcessManager.isRunning) -/

/-- Network oracle: whether a TCP connection to localhost on the given port,
attempted at the given poll instant, succeeds. -/
structure NetModel where
  accepts : Nat → Nat → Bool

/-- Embeds checkPort (src/lib/utils.js): for a port in the valid socket
range the returned promise resolves true when the connection succeeds and
resolves false on any connection error; for a port above 65535 the
net.createConnection call inside the promise executor throws
ERR_SOCKET_BAD_PORT synchronously, so the promise rejects instead of
resolving. -/
def checkPort (net : NetModel) (t : Nat) (port : Nat) : ERes Bool :=
  if port > 65535 then .thrown "ERR_SOCKET_BAD_PORT"
  else .ok (net.accepts t port)

/-- The try-block body of ProcessManager.isRunning: await both probes in
order and return the disjunction; a rejected probe promise propagates as an
exception. -/
def isRunningRaw (net : NetModel) (t : Nat) (httpPort : Nat) : ERes Bool :=
  (checkPort net t httpPort).bind fun isRunningOnHttpPort =>
  (checkPort net t (httpPort + 1000)).bind fun isRunningOnHttpPortPlus1000 =>
  .ok (isRunningOnHttpPort || isRunningOnHttpPortPlus1000)

/-- Embeds ProcessManager.isRunning: the disjunction of the two probes, with
the surrounding catch logging (exitProcess false) and returning false when
either probe rejects. -/
def isRunning (net : NetModel) (t : Nat) (httpPort : Nat) : Bool :=
  match isRunningRaw net t httpPort with
  | .ok b => b
  | _ => false

/-! ## RHO environment merge (ProcessManager constructor and run) -/

/-- The port/logging override directive appended to RHO by ProcessManager.run. -/
def rhoDirective (httpPort : Nat) : String :=
  "/http-listner/port->" ++ toString httpPort ++ ";/logging/full-stacktrace->true;"

/-- Embeds the RHO assignment in ProcessManager.run: a truthy captured base
gets the directive appended after a semicolon, an empty base is replaced. -/
def mergeRHO (originalRHO : String) (httpPort : Nat) : String :=
  if originalRHO ≠ "" then originalRHO ++ ";" ++ rhoDirective httpPort
  else rhoDirective httpPort

/-- The ProcessManager state relevant to the environment contract:
the base RHO value captured once in the constructor, and the current
process-environment RHO value mutated by each run. -/
structure PMState where
  originalRHO : String
  envRHO : Option String
  deriving DecidableEq

/-- Embeds the ProcessManager constructor: capture the original RHO
environment value (empty when unset) once at controller startup. -/
def pmInit (initialEnvRHO : Option String) : PMState :=
  { originalRHO := initialEnvRHO.getD "", envRHO := initialEnvRHO }

/-- Embeds the environment mutation performed by one start of the managed
process: the environment RHO is assigned from the captured base, never from
the current environment value. -/
def pmStart (st : PMState) (httpPort : Nat) : PMState :=
  { st with envRHO := some (mergeRHO st.originalRHO httpPort) }

/-- n successive starts of the managed process within one CLI session. -/
def pmStartN (httpPort : Nat) : Nat → PMState → PMState
  | 0, st => st
  | n + 1, st => pmStartN httpPort n (pmStart st httpPort)

/-! ## Startup poll loop (ProcessManager.run wait loop) -/

/-- Embeds the bounded startup wait loop of ProcessManager.run: up to the
given fuel many iterations, each sleeping 200 ms and then probing liveness
once; stops early when the probe succeeds. Returns the number of poll
attempts made and whether liveness was achieved. -/
def startupPoll (net : NetModel) (httpPort : Nat) : Nat → Nat → Nat × Bool
  | 0, attempts => (attempts, false)
  | t + 1, attempts =>
    if isRunning net attempts httpPort then (attempts + 1, true)
    else startupPoll net httpPort t (attempts + 1)

/-! ## Config-file host/port resolution (ProcessManager.parseConfigPath,
ProcessManager.getHostAndPortFromConfig) -/

/-- The http-listener section of a parsed YAML config file; a missing or
JS-falsy field is modelled as none. -/
structure HttpListener where
  host : Option String
  port : Option Nat
  deriving DecidableEq

/-- The listener section carrying no fields, the JS fallback empty object. -/
def emptyListener : HttpListener :=
  { host := none, port := none }

/-- A config file on disk as far as getHostAndPortFromConfig observes it:
missing, unreadable or unparsable (the read or the YAML load throws), or
parsed with an optional http-listener section. -/
inductive ConfigFile
  | absent
  | unreadable
  | parsed (listener : Option HttpListener)
  deriving DecidableEq

/-- JS falsy-or on an optional string field: fall back when missing or empty. -/
def jsOrStr (v : Option String) (dflt : String) : String :=
  match v with
  | none => dflt
  | some s => if s = "" then dflt else s

/-- JS falsy-or on an optional numeric field: fall back when missing or zero. -/
def jsOrNat (v : Option Nat) (dflt : Nat) : Nat :=
  match v with
  | none => dflt
  | some n => if n = 0 then dflt else n

/-- Embeds ProcessManager.parseConfigPath: scan the tokenised options for
the first -o token that has a following token, and return that token. -/
def parseConfigPath : List String → Option String
  | [] => none
  | [_] => none
  | a :: b :: rest => if a = "-o" then some b else parseConfigPath (b :: rest)

/-- The try-block body of getHostAndPortFromConfig: defaults when the path
is null or the file is missing; a read or parse failure throws; otherwise
the listener fields with their individual JS-falsy fallbacks. -/
def getHostAndPortRaw (fs : String → ConfigFile) (httpPort : Nat) :
    Option String → Except String (String × Nat)
  | none => .ok ("localhost", httpPort)
  | some p =>
    match fs p with
    | .absent => .ok ("localhost", httpPort)
    | .unreadable => .error "failed to parse config file"
    | .parsed listener =>
      let l := listener.getD emptyListener
      .ok (jsOrStr l.host "localhost", jsOrNat l.port httpPort)

/-- Embeds ProcessManager.getHostAndPortFromConfig: the catch handler logs a
warning and returns the defaults, so the function never fails. -/
def getHostAndPortFromConfig (fs : String → ConfigFile) (httpPort : Nat)
    (configPath : Option String) : String × Nat :=
  match getHostAndPortRaw fs httpPort configPath with
  | .ok r => r
  | .error _ => ("localhost", httpPort)

/-! ## Sanity examples (compile-time checks of the embedding on concrete data) -/

example : onlyPrintConfig "-v" = true := by decide
example : onlyPrintConfig "-o etc/dev.yml" = false := by decide
example : onlyPrintConfig "a -t b" = true := by decide
example : onlyPrintConfig "-tx" = false := by decide
example : onlyPrintConfig "x-t" = false := by decide
example : parseConfigPath (splitWs "-o etc/dev.yml") = some "etc/dev.yml" := by decide
example : parseConfigPath (splitWs "-o") = none := by decide
example : strIncludes "java -jar restheart.jar" "restheart" = true := by decide
example : sliceLast 3 "abcdef" = "def" := by decide
example : sliceLast 1000 "short" = "short" := by decide
example : mergeRHO "A" 8080 =
    "A;/http-listner/port->8080;/logging/full-stacktrace->true;" := by decide
example : startupPoll ⟨fun _ _ => false⟩ 8080 30 0 = (30, false) := by decide

/-! ## Process discovery and kill (ProcessManager.kill / checkAndKill) -/

/-- One entry of the OS process list as returned by psList. -/
structure ProcEntry where
  pid : Nat
  name : String
  cmd : String
  deriving DecidableEq

/-- The filter in ProcessManager.kill: executable named java whose command
line contains the managed-server signature substring. -/
def matchesSignature (p : ProcEntry) : Bool :=
  p.name == "java" && strIncludes p.cmd "restheart"

/-- Signal delivery oracle: process.kill with SIGTERM either succeeds or
throws. -/
def processKillSig (sig : Nat → Bool) (pid : Nat) : ERes Unit :=
  if sig pid then .ok () else .thrown "kill failed"

/-- The per-process signal loop of ProcessManager.kill: each send is wrapped
in its own try/catch, a failure is logged and the loop continues with the
remaining matches. Returns the pids signalled and the pids whose send threw. -/
def killLoop (sig : Nat → Bool) : List ProcEntry → List Nat × List Nat
  | [] => ([], [])
  | p :: rest =>
    match processKillSig sig p.pid with
    | .ok _ =>
      let (ok, failed) := killLoop sig rest
      (p.pid :: ok, failed)
    | _ =>
      let (ok, failed) := killLoop sig rest
      (ok, p.pid :: failed)

/-- What ProcessManager.kill reported: an informational not-found message,
or the signal loop outcome. -/
inductive KillReport
  | nothingFound
  | signalled (ok : List Nat) (failed : List Nat)
  deriving DecidableEq

/-- Embeds ProcessManager.kill: filter the process list by the managed-server
signature; an empty match set is reported informationally and nothing is
signalled; otherwise run the per-process signal loop. Every exception is
consumed by a catch (the outer catch uses exitProcess false), so the call
always completes normally. -/
def pmKill (sig : Nat → Bool) (procs : List ProcEntry) : ERes KillReport :=
  let filtered := procs.filter matchesSignature
  if filtered.isEmpty then .ok .nothingFound
  else
    let (ok, failed) := killLoop sig filtered
    .ok (.signalled ok failed)

/-- What ProcessManager.checkAndKill reported: the kill outcome, the
informational nothing-to-kill warning, or a caught error. -/
inductive CheckKillReport
  | killed (r : KillReport)
  | nothingToKill
  | errorCaught
  deriving DecidableEq

/-- Embeds ProcessManager.checkAndKill: kill only when isRunning holds, else
warn that there is nothing to kill; its catch logs with exitProcess false. -/
def checkAndKill (net : NetModel) (t httpPort : Nat) (sig : Nat → Bool)
    (procs : List ProcEntry) : ERes CheckKillReport :=
  if isRunning net t httpPort then
    match pmKill sig procs with
    | .ok r => .ok (.killed r)
    | .thrown _ => .ok .errorCaught
    | .exited c => .exited c
  else .ok .nothingToKill

/-! ## ProcessManager.run and the CLI run command -/

/-- The externally visible steps of the run command, for stating which
operations are and are not invoked on each path. -/
inductive RunAction
  | checkJava
  | execForeground
  | jarCheck
  | setRHO
  | spawnDetached
  | pollLiveness
  | checkAndKillStep
  | buildStep
  | deployStep
  deriving DecidableEq

/-- The final disposition of one ProcessManager.run invocation. -/
inductive RunOutcome
  | fatalNoJava
  | printedConfig
  | fatalNoJar
  | fatalTimeout (logTail : Option String)
  | started (host : String) (port : Nat)
  deriving DecidableEq

/-- One ProcessManager.run invocation summarised: disposition, the steps
taken in order, the RHO value assigned (none when the assignment was not
reached), poll attempts made, and whether the process exited fatally. -/
structure RunResult where
  outcome : RunOutcome
  actions : List RunAction
  rhoSet : Option String
  attempts : Nat
  exitedProcess : Bool
  deriving DecidableEq

/-- The world ProcessManager.run runs against. -/
structure RunEnv where
  javaPresent : Bool
  jarExists : Bool
  net : NetModel
  httpPort : Nat
  logFile : Option String
  fsConfig : String → ConfigFile

/-- Embeds ProcessManager.run (src/lib/process-manager.js): check java,
short-circuit to a synchronous foreground execution for print-only options,
validate the jar, assign RHO from the captured base, spawn detached, poll
liveness up to 30 attempts at 200 ms, and on timeout fail fatally surfacing
the last 1000 characters of the redirected log; on liveness report success
at the host/port resolved from an optional -o config file. -/
def pmRun (env : RunEnv) (st : PMState) (restheartOptions : String) :
    RunResult × PMState :=
  if !env.javaPresent then
    ({ outcome := .fatalNoJava, actions := [.checkJava], rhoSet := st.envRHO,
       attempts := 0, exitedProcess := true }, st)
  else if onlyPrintConfig restheartOptions then
    ({ outcome := .printedConfig, actions := [.checkJava, .execForeground],
       rhoSet := st.envRHO, attempts := 0, exitedProcess := false }, st)
  else if !env.jarExists then
    ({ outcome := .fatalNoJar, actions := [.checkJava, .jarCheck],
       rhoSet := st.envRHO, attempts := 0, exitedProcess := true }, st)
  else
    let st := pmStart st env.httpPort
    let poll := startupPoll env.net env.httpPort 30 0
    if poll.2 then
      let configPath := parseConfigPath (splitWs restheartOptions)
      let hp := getHostAndPortFromConfig env.fsConfig env.httpPort configPath
      ({ outcome := .started hp.1 hp.2,
         actions := [.checkJava, .jarCheck, .setRHO, .spawnDetached, .pollLiveness],
         rhoSet := st.envRHO, attempts := poll.1, exitedProcess := false }, st)
    else
      ({ outcome := .fatalTimeout (env.logFile.map (sliceLast 1000)),
         actions := [.checkJava, .jarCheck, .setRHO, .spawnDetached, .pollLiveness],
         rhoSet := st.envRHO, attempts := poll.1, exitedProcess := true }, st)

/-- Embeds the run case of the CLI dispatch (src/lib/cli.js): when the
options are not print-only, first checkAndKill and optionally build and
deploy; then delegate to ProcessManager.run. Returns the full ordered step
trace and the run result. -/
def cliRun (env : RunEnv) (st : PMState) (buildFlag : Bool)
    (restheartOptions : String) : List RunAction × RunResult :=
  let pre : List RunAction :=
    if !onlyPrintConfig restheartOptions then
      .checkAndKillStep :: (if buildFlag then [.buildStep, .deployStep] else [])
    else []
  let r := (pmRun env st restheartOptions).1
  (pre ++ r.actions, r)

/-! ## Watch session debounce state machine (Watcher.watchFiles) -/

/-- The externally observable events of a watch session: a chokidar change
event, or completion of the asynchronous rebuild cycle, each at a time in
milliseconds. -/
inductive WEvent
  | change (t : Nat)
  | cycleEnd (t : Nat)
  deriving DecidableEq

/-- The session state of Watcher.watchFiles: the deadline of the single
pending debounce timer (debounceTimeoutId), the number of rebuild cycles in
progress (the isProcessing flag, counted so the invariant is statable), and
the start times of started and of skipped cycles. -/
structure WState where
  pending : Option Nat
  processing : Nat
  started : List Nat
  skipped : List Nat
  deriving DecidableEq

/-- Initial session state when the watch command attaches the watcher. -/
def wInit : WState :=
  { pending := none, processing := 0, started := [], skipped := [] }

/-- The debounce-timer callback body firing at its deadline: when a rebuild
cycle is already in progress the fired cycle is skipped (and logged), else
one rebuild cycle begins. -/
def fireTimer (st : WState) (d : Nat) : WState :=
  if st.processing ≠ 0 then
    { st with skipped := st.skipped ++ [d] }
  else
    { st with processing := st.processing + 1, started := st.started ++ [d] }

/-- Deliver the pending timer when its deadline has passed by time t. -/
def deliverTimer (st : WState) (t : Nat) : WState :=
  match st.pending with
  | none => st
  | some d => if d ≤ t then fireTimer { st with pending := none } d else st

/-- One step of the session: a change event first lets a due timer fire,
then clears any pending timer and sets the single new one at now plus the
debounce interval; a cycle completion resets the processing flag. -/
def wStep (debounce : Nat) (st : WState) : WEvent → WState
  | .change t =>
    let st := deliverTimer st t
    { st with pending := some (t + debounce) }
  | .cycleEnd t =>
    let st := deliverTimer st t
    { st with processing := st.processing - 1 }

/-- The session state after a sequence of events. -/
def wRun (debounce : Nat) (evs : List WEvent) : WState :=
  evs.foldl (wStep debounce) wInit

/-- End of observation: a still-pending timer eventually fires. -/
def wFlush (st : WState) : WState :=
  match st.pending with
  | none => st
  | some d => fireTimer { st with pending := none } d

/-- The complete observable behaviour of one watch session on an event
sequence, including the final timer firing. -/
def wSession (debounce : Nat) (evs : List WEvent) : WState :=
  wFlush (wRun debounce evs)

example : (wSession 1000 [WEvent.change 0, WEvent.change 200]).started = [1200] := by decide
example : (wSession 1000 [WEvent.change 0, WEvent.change 200]).skipped = [] := by decide
example : (wSession 1000 [WEvent.change 0, WEvent.cycleEnd 1100, WEvent.change 1500]).started
    = [1000, 2500] := by decide
example : (wSession 1000 [WEvent.change 0, WEvent.change 1500]).started = [1000] := by decide
example : (wSession 1000 [WEvent.change 0, WEvent.change 1500]).skipped = [2500] := by decide

/-! ## The rebuild cycle body and its failure behaviour (Watcher.watchFiles
callback, Builder.build / Builder.deploy, ProcessManager.run) -/

/-- Embeds the failure path of Builder.build (src/lib/watcher.js): a nonzero
mvn exit code raises an error that the local catch turns into a logged
message followed by a process exit with code 1. -/
def builderBuild (mvnExit : Nat) : ERes Unit :=
  if mvnExit ≠ 0 then ERes.exited 1 else ERes.ok ()

/-- Embeds the failure path of Builder.deploy: a failed plugin copy is
logged and followed by a process exit with code 1. -/
def builderDeploy (copyOk : Bool) : ERes Unit :=
  if copyOk then .ok () else .exited 1

/-- ProcessManager.run as seen by a caller: every fatal disposition inside
run reaches ErrorHandler with exitProcess true or shell.exit, so a failed
run exits the process rather than throwing to the caller. -/
def pmRunE (env : RunEnv) (st : PMState) (restheartOptions : String) : ERes RunOutcome :=
  let r := (pmRun env st restheartOptions).1
  if r.exitedProcess then .exited 1 else .ok r.outcome

/-- The world one rebuild cycle runs against. -/
structure CycleEnv where
  runEnv : RunEnv
  pm : PMState
  runningAtStart : Bool
  sig : Nat → Bool
  procs : List ProcEntry
  mvnExit : Nat
  copyOk : Bool

/-- The stop step of the cycle: kill only when the managed process is
running; ProcessManager.kill consumes every failure internally. -/
def cycleStopStep (env : CycleEnv) : ERes Unit :=
  if env.runningAtStart then
    match pmKill env.sig env.procs with
    | .ok _ => .ok ()
    | .thrown m => .thrown m
    | .exited c => .exited c
  else .ok ()

/-- The try-block body of the watch callback: stop when running, then build
skipping tests, then deploy, then restart with the original run options. -/
def cycleBody (env : CycleEnv) (restheartOptions : String) : ERes Unit :=
  (cycleStopStep env).bind fun _ =>
  (builderBuild env.mvnExit).bind fun _ =>
  (builderDeploy env.copyOk).bind fun _ =>
  (pmRunE env.runEnv env.pm restheartOptions).bind fun _ => .ok ()

/-- The try/catch/finally wrapper of the watch callback around the cycle
body: a thrown error is caught and logged via ErrorHandler with exitProcess
false, finally resets the isProcessing flag; a process exit bypasses both. -/
def callbackGuard (body : ERes Unit) (st : WState) (log : List String) :
    ERes Unit × WState × List String :=
  match body with
  | .ok _ => (.ok (), { st with processing := st.processing - 1 }, log)
  | .thrown m =>
    let (log, r) := handleError ("File watcher error: " ++ m) false log
    (r, { st with processing := st.processing - 1 }, log)
  | .exited c => (.exited c, st, log)

/-- Embeds the debounce-timer callback of Watcher.watchFiles firing one
rebuild cycle: skip (with a log line) when a cycle is already in progress,
else set isProcessing and run the guarded cycle body. -/
def watchCycle (env : CycleEnv) (restheartOptions : String) (st : WState)
    (log : List String) : ERes Unit × WState × List String :=
  if st.processing ≠ 0 then
    (.ok (), st, log ++ ["Already processing a change, skipping..."])
  else
    callbackGuard (cycleBody env restheartOptions)
      { st with processing := st.processing + 1 } log

/-! ## Concrete instances used to evaluate the embedding -/

/-- A network where no port ever accepts a connection. -/
def netNone : NetModel := ⟨fun _ _ => false⟩

/-- A network where every port accepts immediately. -/
def netAlways : NetModel := ⟨fun _ _ => true⟩

/-- A network where only port 9080 accepts. -/
def netDebugOnly : NetModel := ⟨fun _ p => p == 9080⟩

/-- A network with a listener bound only on port 65000. -/
def netHigh : NetModel := ⟨fun _ p => p == 65000⟩

/-- A run environment whose managed process never becomes live. -/
def envTimeout : RunEnv :=
  { javaPresent := true, jarExists := true, net := netNone, httpPort := 8080,
    logFile := some "boot error", fsConfig := fun _ => .absent }

/-- A run environment whose managed process is live immediately. -/
def envLive : RunEnv :=
  { javaPresent := true, jarExists := true, net := netAlways, httpPort := 8080,
    logFile := none, fsConfig := fun _ => .absent }

/-- Three process-list entries all matching the managed-server signature. -/
def procsThree : List ProcEntry :=
  [⟨101, "java", "java -jar restheart.jar"⟩,
   ⟨102, "java", "java -Dx -jar restheart.jar -o etc/dev.yml"⟩,
   ⟨103, "java", "java restheart"⟩]

/-- A signal oracle for which the send to pid 102 throws. -/
def sigFails102 : Nat → Bool := fun pid => pid != 102

/-- A rebuild cycle whose build step fails (nonzero mvn exit code). -/
def cycleEnvBuildFail : CycleEnv :=
  { runEnv := envLive, pm := pmInit none, runningAtStart := false,
    sig := fun _ => true, procs := [], mvnExit := 1, copyOk := true }

/-- A rebuild cycle that succeeds end to end even though every termination
signal of its stop step throws. -/
def cycleEnvOk : CycleEnv :=
  { runEnv := envLive, pm := pmInit none, runningAtStart := true,
    sig := fun _ => false, procs := procsThree, mvnExit := 0, copyOk := true }

/-! # Theorems -/

/-! ## Supporting lemmas -/

theorem pmStartN_fixed (p : Nat) :
    ∀ (n : Nat) (st : PMState), 1 ≤ n →
      (pmStartN p n st).envRHO = some (mergeRHO st.originalRHO p) := by
  intro n
  induction n with
  | zero => intro st h; omega
  | succ m ih =>
    intro st _
    rcases Nat.eq_zero_or_pos m with h0 | hpos
    · subst h0; rfl
    · show (pmStartN p m (pmStart st p)).envRHO = _
      rw [ih (pmStart st p) hpos]
      rfl

theorem startupPoll_never (net : NetModel) (p : Nat)
    (h : ∀ t, isRunning net t p = false) :
    ∀ (fuel a : Nat), startupPoll net p fuel a = (a + fuel, false) := by
  intro fuel
  induction fuel with
  | zero => intro a; rfl
  | succ m ih =>
    intro a
    rw [startupPoll, if_neg (by simp [h a]), ih (a + 1)]
    rw [show a + 1 + m = a + (m + 1) by omega]

theorem startupPoll_hits (net : NetModel) (p : Nat) :
    ∀ (fuel a : Nat), (∃ k, k < fuel ∧ isRunning net (a + k) p = true) →
      (startupPoll net p fuel a).2 = true := by
  intro fuel
  induction fuel with
  | zero =>
    intro a h
    obtain ⟨k, hk, _⟩ := h
    omega
  | succ m ih =>
    intro a h
    obtain ⟨k, hk, hl⟩ := h
    rw [startupPoll]
    by_cases h0 : isRunning net a p
    · simp [h0]
    · rw [if_neg (by simp [h0])]
      apply ih (a + 1)
      rcases Nat.eq_zero_or_pos k with hk0 | hkpos
      · subst hk0; simp at hl; exact absurd hl h0
      · exact ⟨k - 1, by omega, by rw [show a + 1 + (k - 1) = a + k by omega]; exact hl⟩

theorem killLoop_spec (sig : Nat → Bool) :
    ∀ l : List ProcEntry,
      killLoop sig l = ((l.filter (fun p => sig p.pid)).map ProcEntry.pid,
                        (l.filter (fun p => !sig p.pid)).map ProcEntry.pid) := by
  intro l
  induction l with
  | nil => rfl
  | cons p rest ih =>
    by_cases h : sig p.pid
    · simp [killLoop, processKillSig, h, ih, List.filter_cons]
    · simp [killLoop, processKillSig, h, ih, List.filter_cons]

theorem pmKill_ok (sig : Nat → Bool) (procs : List ProcEntry) :
    ∃ r, pmKill sig procs = ERes.ok r := by
  by_cases h : (procs.filter matchesSignature).isEmpty
  · exact ⟨.nothingFound, by simp [pmKill, h]⟩
  · rcases hkl : killLoop sig (procs.filter matchesSignature) with ⟨ok, failed⟩
    exact ⟨.signalled ok failed, by simp [pmKill, h, hkl]⟩

theorem cycleStopStep_ok (env : CycleEnv) : cycleStopStep env = ERes.ok () := by
  unfold cycleStopStep
  split
  · obtain ⟨r, hr⟩ := pmKill_ok env.sig env.procs
    rw [hr]
  · rfl

/-! ## Claim theorems -/

/-- C6 counterexample: httpPort 65000 is inside the claimed 1 to 65535
range and a listener is bound on the primary port, yet the secondary probe
at 66000 throws ERR_SOCKET_BAD_PORT synchronously, the catch in isRunning
returns false, and isRunning reports not running, contradicting the claimed
disjunction with the primary probe true. -/
theorem liveness_disjunction_counterexample :
    (1 ≤ 65000 ∧ 65000 ≤ 65535 ∧ netHigh.accepts 0 65000 = true)
    ∧ isRunning netHigh 0 65000 = false := by
  refine ⟨⟨by decide, by decide, by decide⟩, by decide⟩

/-- C6 (amended): for every configured httpPort in 1 to 64535 (so that the
debug offset port stays in the valid socket range), isRunning is exactly
the disjunction of the probe on the port and on the port plus 1000, the
probe reporting a connection error as false without an exception escaping;
with nothing listening it is false and with a listener on either port it is
true. For httpPort in 64536 to 65535 the secondary probe rejects with
ERR_SOCKET_BAD_PORT and the catch in isRunning returns false regardless of
the primary-port probe. -/
theorem liveness_disjunction (net : NetModel) (t httpPort : Nat)
    (_h1 : 1 ≤ httpPort) (h2 : httpPort ≤ 64535) :
    isRunning net t httpPort
        = (net.accepts t httpPort || net.accepts t (httpPort + 1000))
    ∧ (net.accepts t httpPort = false → net.accepts t (httpPort + 1000) = false →
        isRunning net t httpPort = false)
    ∧ (net.accepts t httpPort = true → isRunning net t httpPort = true)
    ∧ (net.accepts t (httpPort + 1000) = true → isRunning net t httpPort = true)
    ∧ (∀ q, 64536 ≤ q → q ≤ 65535 → isRunning net t q = false) := by
  have hv1 : ¬ httpPort > 65535 := by omega
  have hv2 : ¬ httpPort + 1000 > 65535 := by omega
  have hmain : isRunning net t httpPort
      = (net.accepts t httpPort || net.accepts t (httpPort + 1000)) := by
    simp [isRunning, isRunningRaw, checkPort, ERes.bind, hv1, hv2]
  refine ⟨hmain, ?_, ?_, ?_, ?_⟩
  · intro ha hb; simp [hmain, ha, hb]
  · intro ha; simp [hmain, ha]
  · intro hb; simp [hmain, hb]
  · intro q hq1 hq2
    have hq3 : ¬ q > 65535 := by omega
    have hq4 : q + 1000 > 65535 := by omega
    simp [isRunning, isRunningRaw, checkPort, ERes.bind, hq3, hq4]

/-- Witness for the amended C6 at a concrete network listening only on the
debug port, and at the high band where the secondary probe rejects. -/
theorem liveness_disjunction_witness :
    (1 ≤ 8080 ∧ 8080 ≤ 64535 ∧ netDebugOnly.accepts 0 (8080 + 1000) = true
      ∧ 64536 ≤ 65000 ∧ 65000 ≤ 65535)
    ∧ isRunning netDebugOnly 0 8080 = true
    ∧ isRunning netDebugOnly 0 65000 = false :=
  ⟨⟨by decide, by decide, by decide, by decide, by decide⟩,
   (liveness_disjunction netDebugOnly 0 8080 (by decide) (by decide)).2.2.2.1 (by decide),
   (liveness_disjunction netDebugOnly 0 8080 (by decide) (by decide)).2.2.2.2 65000
     (by decide) (by decide)⟩

/-- C3: environment-merge non-accumulation. With a pre-existing override
value A captured once at controller startup, every start of the managed
process in the same CLI session (the second and later restarts included)
sets the environment override to exactly A, a semicolon, and the
port/logging directive; and the run operation assigns the environment from
the captured base, never from the current environment value. -/
theorem rho_merge_no_accumulation :
    (∀ (A : String) (p n : Nat), A ≠ "" → 1 ≤ n →
      (pmStartN p n (pmInit (some A))).envRHO = some (A ++ ";" ++ rhoDirective p))
    ∧ (∀ (env : RunEnv) (st : PMState) (opts : String),
        env.javaPresent = true → onlyPrintConfig opts = false → env.jarExists = true →
        (pmRun env st opts).2.envRHO = some (mergeRHO st.originalRHO env.httpPort)) := by
  constructor
  · intro A p n hA hn
    rw [pmStartN_fixed p n (pmInit (some A)) hn]
    simp [pmInit, mergeRHO, hA]
  · intro env st opts hj hp hjar
    simp only [pmRun, hj, hp, hjar, Bool.not_true, Bool.false_eq_true, if_false]
    split <;> rfl

/-- Witness for C3: two starts with base value A produce exactly the merged
value, not an accumulated one. -/
theorem rho_merge_no_accumulation_witness :
    ("A" ≠ "" ∧ 1 ≤ 2)
    ∧ (pmStartN 8080 2 (pmInit (some "A"))).envRHO
        = some ("A" ++ ";" ++ rhoDirective 8080) :=
  ⟨⟨by decide, by decide⟩,
   rho_merge_no_accumulation.1 "A" 8080 2 (by decide) (by decide)⟩

/-- C9: idempotent kill on an empty match set. With no matching OS process,
kill signals nothing, completes normally, and reports the informational
not-found outcome; checkAndKill with liveness false reports the
informational nothing-to-kill outcome, and with liveness true but no match
it reports the kill not-found outcome. -/
theorem idempotent_kill_empty :
    (∀ (sig : Nat → Bool) (procs : List ProcEntry),
      procs.filter matchesSignature = [] →
      pmKill sig procs = ERes.ok KillReport.nothingFound)
    ∧ (∀ (net : NetModel) (t p : Nat) (sig : Nat → Bool) (procs : List ProcEntry),
        isRunning net t p = false →
        checkAndKill net t p sig procs = ERes.ok CheckKillReport.nothingToKill)
    ∧ (∀ (net : NetModel) (t p : Nat) (sig : Nat → Bool) (procs : List ProcEntry),
        isRunning net t p = true → procs.filter matchesSignature = [] →
        checkAndKill net t p sig procs
          = ERes.ok (CheckKillReport.killed KillReport.nothingFound)) := by
  refine ⟨?_, ?_, ?_⟩
  · intro sig procs h
    simp [pmKill, h]
  · intro net t p sig procs h
    simp [checkAndKill, h]
  · intro net t p sig procs h hf
    simp [checkAndKill, h, pmKill, hf]

/-- Witness for C9 at the empty process list and a quiet network. -/
theorem idempotent_kill_empty_witness :
    (([] : List ProcEntry).filter matchesSignature = []
      ∧ isRunning netNone 0 8080 = false)
    ∧ pmKill (fun _ => true) [] = ERes.ok KillReport.nothingFound
    ∧ checkAndKill netNone 0 8080 (fun _ => true) []
        = ERes.ok CheckKillReport.nothingToKill :=
  ⟨⟨by decide, by decide⟩,
   idempotent_kill_empty.1 (fun _ => true) [] (by decide),
   idempotent_kill_empty.2.1 netNone 0 8080 (fun _ => true) [] (by decide)⟩

/-- C10: host/port resolution never fails. A null config path, a missing
file, and an unreadable or unparsable file all resolve to the defaults
localhost and the configured httpPort without an exception escaping; in a
parsed file a missing listener section, or a missing host or port field,
falls back individually; and the start operation's success report carries
exactly the resolved pair. -/
theorem host_port_resolution_total :
    (∀ (fs : String → ConfigFile) (port : Nat),
      getHostAndPortFromConfig fs port none = ("localhost", port))
    ∧ (∀ (fs : String → ConfigFile) (port : Nat) (p : String), fs p = .absent →
        getHostAndPortFromConfig fs port (some p) = ("localhost", port))
    ∧ (∀ (fs : String → ConfigFile) (port : Nat) (p : String), fs p = .unreadable →
        getHostAndPortFromConfig fs port (some p) = ("localhost", port))
    ∧ (∀ (fs : String → ConfigFile) (port : Nat) (p : String), fs p = .parsed none →
        getHostAndPortFromConfig fs port (some p) = ("localhost", port))
    ∧ (∀ (fs : String → ConfigFile) (port : Nat) (p : String) (l : HttpListener),
        fs p = .parsed (some l) → l.host = none →
        (getHostAndPortFromConfig fs port (some p)).1 = "localhost")
    ∧ (∀ (fs : String → ConfigFile) (port : Nat) (p : String) (l : HttpListener),
        fs p = .parsed (some l) → l.port = none →
        (getHostAndPortFromConfig fs port (some p)).2 = port)
    ∧ (∀ (env : RunEnv) (st : PMState) (opts : String) (h : String) (q : Nat),
        (pmRun env st opts).1.outcome = .started h q →
        (h, q) = getHostAndPortFromConfig env.fsConfig env.httpPort
          (parseConfigPath (splitWs opts))) := by
  refine ⟨?_, ?_, ?_, ?_, ?_, ?_, ?_⟩
  · intro fs port; rfl
  · intro fs port p h; simp [getHostAndPortFromConfig, getHostAndPortRaw, h]
  · intro fs port p h; simp [getHostAndPortFromConfig, getHostAndPortRaw, h]
  · intro fs port p h
    simp [getHostAndPortFromConfig, getHostAndPortRaw, h, emptyListener, jsOrStr, jsOrNat]
  · intro fs port p l h hh
    simp [getHostAndPortFromConfig, getHostAndPortRaw, h, jsOrStr, hh]
  · intro fs port p l h hp
    simp [getHostAndPortFromConfig, getHostAndPortRaw, h, jsOrNat, hp]
  · intro env st opts h q hout
    unfold pmRun at hout
    split at hout
    · simp at hout
    · split at hout
      · simp at hout
      · split at hout
        · simp at hout
        · simp only [] at hout
          split at hout
          · simp only [RunOutcome.started.injEq] at hout
            rw [← hout.1, ← hout.2]
          · simp at hout

/-- Witness for C10 at a file whose listener has no host and port 9090. -/
theorem host_port_resolution_total_witness :
    ((fun _ => ConfigFile.parsed (some ⟨none, some 9090⟩))
        "etc/dev.yml" = ConfigFile.parsed (some ⟨none, some 9090⟩)
      ∧ (⟨none, some 9090⟩ : HttpListener).host = none)
    ∧ (getHostAndPortFromConfig (fun _ => ConfigFile.parsed (some ⟨none, some 9090⟩))
        8080 (some "etc/dev.yml")).1 = "localhost" :=
  ⟨⟨rfl, rfl⟩,
   host_port_resolution_total.2.2.2.2.1
     (fun _ => ConfigFile.parsed (some ⟨none, some 9090⟩)) 8080 "etc/dev.yml"
     ⟨none, some 9090⟩ rfl rfl⟩

/-- C5: config-print short-circuit. For every trailing options string
containing a print-only flag, the run command performs only the java check
and the synchronous foreground execution and returns; checkAndKill, build,
deploy and the liveness poll loop are never invoked. -/
theorem config_print_short_circuit (env : RunEnv) (st : PMState) (buildFlag : Bool)
    (opts : String) (hflag : onlyPrintConfig opts = true)
    (hjava : env.javaPresent = true) :
    (cliRun env st buildFlag opts).1 = [.checkJava, .execForeground]
    ∧ RunAction.checkAndKillStep ∉ (cliRun env st buildFlag opts).1
    ∧ RunAction.buildStep ∉ (cliRun env st buildFlag opts).1
    ∧ RunAction.deployStep ∉ (cliRun env st buildFlag opts).1
    ∧ RunAction.pollLiveness ∉ (cliRun env st buildFlag opts).1
    ∧ (cliRun env st buildFlag opts).2.outcome = .printedConfig := by
  have h1 : (cliRun env st buildFlag opts).1 = [.checkJava, .execForeground] := by
    simp [cliRun, pmRun, hflag, hjava]
  refine ⟨h1, ?_, ?_, ?_, ?_, ?_⟩
  · rw [h1]; decide
  · rw [h1]; decide
  · rw [h1]; decide
  · rw [h1]; decide
  · simp [cliRun, pmRun, hflag, hjava]

/-- Witness for C5 at the concrete print-only option -v. -/
theorem config_print_short_circuit_witness :
    (onlyPrintConfig "-v" = true ∧ envLive.javaPresent = true)
    ∧ (cliRun envLive (pmInit none) true "-v").1 = [.checkJava, .execForeground]
    ∧ RunAction.checkAndKillStep ∉ (cliRun envLive (pmInit none) true "-v").1
    ∧ RunAction.buildStep ∉ (cliRun envLive (pmInit none) true "-v").1
    ∧ RunAction.deployStep ∉ (cliRun envLive (pmInit none) true "-v").1
    ∧ RunAction.pollLiveness ∉ (cliRun envLive (pmInit none) true "-v").1
    ∧ (cliRun envLive (pmInit none) true "-v").2.outcome = .printedConfig :=
  ⟨⟨by decide, by decide⟩,
   config_print_short_circuit envLive (pmInit none) true "-v" (by decide) (by decide)⟩

/-- C4: bounded startup wait. On the normal start path, when liveness never
holds the poll loop makes exactly 30 attempts and the start is reported as
a fatal timeout surfacing the last up-to-1000 characters of the redirected
log, with the process exiting rather than hanging or retrying; when
liveness is achieved within the budget the start reports success. -/
theorem bounded_startup_wait (env : RunEnv) (st : PMState) (opts : String)
    (hjava : env.javaPresent = true) (hflag : onlyPrintConfig opts = false)
    (hjar : env.jarExists = true) :
    ((∀ t, isRunning env.net t env.httpPort = false) →
      (pmRun env st opts).1.attempts = 30
      ∧ (pmRun env st opts).1.outcome
          = .fatalTimeout (env.logFile.map (sliceLast 1000))
      ∧ (pmRun env st opts).1.exitedProcess = true)
    ∧ ((∃ k, k < 30 ∧ isRunning env.net k env.httpPort = true) →
        ∃ h q, (pmRun env st opts).1.outcome = .started h q
          ∧ (pmRun env st opts).1.exitedProcess = false)
    ∧ (∀ s : String, (sliceLast 1000 s).length ≤ 1000) := by
  refine ⟨?_, ?_, ?_⟩
  · intro hdead
    have hp := startupPoll_never env.net env.httpPort hdead 30 0
    simp [pmRun, hjava, hflag, hjar, hp]
  · intro hlive
    have hp := startupPoll_hits env.net env.httpPort 30 0
      (by obtain ⟨k, hk, hl⟩ := hlive; exact ⟨k, hk, by simpa using hl⟩)
    simp only [pmRun, hjava, hflag, hjar, Bool.not_true, Bool.false_eq_true, if_false,
      hp]
    exact ⟨_, _, rfl, rfl⟩
  · intro s
    simp only [sliceLast, String.length]
    simp [List.length_drop]
    omega

/-- Witness for C4 at a network that never accepts: exactly 30 attempts and
a fatal timeout surfacing the log tail. -/
theorem bounded_startup_wait_witness :
    (envTimeout.javaPresent = true ∧ onlyPrintConfig "" = false
      ∧ envTimeout.jarExists = true
      ∧ ∀ t, isRunning envTimeout.net t envTimeout.httpPort = false)
    ∧ (pmRun envTimeout (pmInit none) "").1.attempts = 30
    ∧ (pmRun envTimeout (pmInit none) "").1.outcome
        = .fatalTimeout (envTimeout.logFile.map (sliceLast 1000))
    ∧ (pmRun envTimeout (pmInit none) "").1.exitedProcess = true :=
  ⟨⟨by decide, by decide, by decide, fun _ => rfl⟩,
   (bounded_startup_wait envTimeout (pmInit none) "" (by decide) (by decide)
     (by decide)).1 (fun _ => rfl)⟩

/-- C8: partial-failure-tolerant kill. With a nonempty match set, kill runs
the signal loop over every match: a send that throws is logged and the
remaining matches still receive their sends, the signalled and failed pids
are exactly the matches partitioned by the signal oracle, every match gets
a send attempt, and the call completes without throwing. -/
theorem partial_failure_kill (sig : Nat → Bool) (procs : List ProcEntry)
    (hne : procs.filter matchesSignature ≠ []) :
    ∃ ok failed,
      pmKill sig procs = ERes.ok (KillReport.signalled ok failed)
      ∧ ok = ((procs.filter matchesSignature).filter
                (fun p => sig p.pid)).map ProcEntry.pid
      ∧ failed = ((procs.filter matchesSignature).filter
                (fun p => !sig p.pid)).map ProcEntry.pid
      ∧ ∀ p ∈ procs.filter matchesSignature, p.pid ∈ ok ∨ p.pid ∈ failed := by
  refine ⟨_, _, ?_, rfl, rfl, ?_⟩
  · have hk := killLoop_spec sig (procs.filter matchesSignature)
    have hne2 : (procs.filter matchesSignature).isEmpty = false := by
      simpa [List.isEmpty_iff] using hne
    simp [pmKill, hne2, hk]
  · intro p hp
    have hp2 := List.mem_filter.mp hp
    by_cases h : sig p.pid
    · refine Or.inl ?_
      simp only [List.mem_map, List.mem_filter]
      exact ⟨p, ⟨hp2, h⟩, rfl⟩
    · refine Or.inr ?_
      simp only [List.mem_map, List.mem_filter]
      exact ⟨p, ⟨hp2, by simp [h]⟩, rfl⟩

/-- Witness for C8: three matching processes, the send to the middle one
throws, the other two are still signalled and the call completes normally. -/
theorem partial_failure_kill_witness :
    procsThree.filter matchesSignature ≠ []
    ∧ ∃ ok failed,
      pmKill sigFails102 procsThree = ERes.ok (KillReport.signalled ok failed)
      ∧ ok = ((procsThree.filter matchesSignature).filter
                (fun p => sigFails102 p.pid)).map ProcEntry.pid
      ∧ failed = ((procsThree.filter matchesSignature).filter
                (fun p => !sigFails102 p.pid)).map ProcEntry.pid
      ∧ ∀ p ∈ procsThree.filter matchesSignature, p.pid ∈ ok ∨ p.pid ∈ failed :=
  ⟨by decide, partial_failure_kill sigFails102 procsThree (by decide)⟩

theorem wChainFold (debounce : Nat) :
    ∀ (ts : List Nat) (prev : Nat) (s k : List Nat),
      List.Chain (fun a b => a ≤ b ∧ b < a + debounce) prev ts →
      List.foldl (wStep debounce)
        { pending := some (prev + debounce), processing := 0, started := s, skipped := k }
        (ts.map WEvent.change)
      = { pending := some (ts.getLastD prev + debounce), processing := 0,
          started := s, skipped := k } := by
  intro ts
  induction ts with
  | nil => intro prev s k _; rfl
  | cons t rest ih =>
    intro prev s k hch
    cases hch with
    | cons hr hch =>
      obtain ⟨hle, hlt⟩ := hr
      have hstep : wStep debounce
          { pending := some (prev + debounce), processing := 0, started := s, skipped := k }
          (WEvent.change t)
          = { pending := some (t + debounce), processing := 0, started := s, skipped := k } := by
        simp only [wStep, deliverTimer]
        rw [if_neg (by omega)]
      rw [List.map_cons, List.foldl_cons, hstep, ih t s k hch, List.getLastD_cons]

/-- C1: debounce coalescing. For every burst of one or more change events in
which each event arrives less than the debounce interval after the previous
one, the session starts exactly one rebuild cycle, at the debounce interval
after the last event, with no skipped firing; and each change event replaces
the single pending timer rather than scheduling an additional one. -/
theorem debounce_coalescing (debounce t : Nat) (ts : List Nat)
    (_hd : 0 < debounce)
    (hch : List.Chain (fun a b => a ≤ b ∧ b < a + debounce) t ts) :
    (wSession debounce ((t :: ts).map WEvent.change)).started
        = [ts.getLastD t + debounce]
    ∧ (wSession debounce ((t :: ts).map WEvent.change)).skipped = []
    ∧ ∀ (st : WState) (u : Nat),
        (wStep debounce st (.change u)).pending = some (u + debounce) := by
  have h0 : wStep debounce wInit (WEvent.change t)
      = { pending := some (t + debounce), processing := 0, started := [], skipped := [] } := by
    simp [wStep, deliverTimer, wInit]
  have hrun : wRun debounce ((t :: ts).map WEvent.change)
      = { pending := some (ts.getLastD t + debounce), processing := 0,
          started := [], skipped := [] } := by
    rw [wRun, List.map_cons, List.foldl_cons, h0, wChainFold debounce ts t [] [] hch]
  refine ⟨?_, ?_, ?_⟩
  · rw [wSession, hrun]; simp [wFlush, fireTimer]
  · rw [wSession, hrun]; simp [wFlush, fireTimer]
  · intro st u; rfl

/-- Witness for C1 at a two-event burst 200 ms apart with a 1000 ms debounce. -/
theorem debounce_coalescing_witness :
    (0 < 1000 ∧ List.Chain (fun a b => a ≤ b ∧ b < a + 1000) 0 [200])
    ∧ (wSession 1000 (([0, 200] : List Nat).map WEvent.change)).started
        = [([200] : List Nat).getLastD 0 + 1000] :=
  ⟨⟨by omega, List.Chain.cons ⟨by omega, by omega⟩ List.Chain.nil⟩,
   (debounce_coalescing 1000 0 [200] (by omega)
     (List.Chain.cons ⟨by omega, by omega⟩ List.Chain.nil)).1⟩

theorem fireTimer_processing_le (st : WState) (d : Nat) (h : st.processing ≤ 1) :
    (fireTimer st d).processing ≤ 1 := by
  unfold fireTimer
  split
  · exact h
  · next hz =>
    show st.processing + 1 ≤ 1
    simp at hz
    omega

theorem deliverTimer_processing_le (st : WState) (t : Nat) (h : st.processing ≤ 1) :
    (deliverTimer st t).processing ≤ 1 := by
  obtain ⟨pend, proc, s, k⟩ := st
  cases pend with
  | none => simpa [deliverTimer] using h
  | some d =>
    simp only [deliverTimer]
    split
    · exact fireTimer_processing_le _ d (by simpa using h)
    · simpa using h

theorem wFlush_processing_le (st : WState) (h : st.processing ≤ 1) :
    (wFlush st).processing ≤ 1 := by
  obtain ⟨pend, proc, s, k⟩ := st
  cases pend with
  | none => simpa [wFlush] using h
  | some d =>
    simp only [wFlush]
    exact fireTimer_processing_le _ d (by simpa using h)

theorem wStep_processing_le (debounce : Nat) (st : WState) (e : WEvent)
    (h : st.processing ≤ 1) : (wStep debounce st e).processing ≤ 1 := by
  cases e with
  | change t => exact deliverTimer_processing_le st t h
  | cycleEnd t =>
    have h2 := deliverTimer_processing_le st t h
    show (deliverTimer st t).processing - 1 ≤ 1
    omega

theorem wFoldl_processing_le (debounce : Nat) :
    ∀ (evs : List WEvent) (st : WState), st.processing ≤ 1 →
      (List.foldl (wStep debounce) st evs).processing ≤ 1 := by
  intro evs
  induction evs with
  | nil => intro st h; exact h
  | cons e rest ih =>
    intro st h
    exact ih (wStep debounce st e) (wStep_processing_le debounce st e h)

/-- C2: re-entrancy guard. In every reachable state of a watch session at
most one rebuild cycle is in progress; a timer firing while a cycle is in
progress starts no second cycle and is recorded as skipped; and after the
in-progress cycle completes, one subsequent change event produces exactly
one new cycle, at the debounce interval after it. -/
theorem reentrancy_guard (debounce : Nat) :
    (∀ evs : List WEvent, (wRun debounce evs).processing ≤ 1
        ∧ (wSession debounce evs).processing ≤ 1)
    ∧ (∀ (st : WState) (d : Nat), st.processing ≠ 0 →
        (fireTimer st d).started = st.started
        ∧ (fireTimer st d).skipped = st.skipped ++ [d]
        ∧ (fireTimer st d).processing = st.processing)
    ∧ (∀ (st : WState) (t1 t2 : Nat), st.processing = 1 → st.pending = none →
        t1 ≤ t2 →
        (wFlush (List.foldl (wStep debounce) st
            [WEvent.cycleEnd t1, WEvent.change t2])).started
          = st.started ++ [t2 + debounce]
        ∧ (wFlush (List.foldl (wStep debounce) st
            [WEvent.cycleEnd t1, WEvent.change t2])).skipped = st.skipped) := by
  refine ⟨?_, ?_, ?_⟩
  · intro evs
    have h1 := wFoldl_processing_le debounce evs wInit (by simp [wInit])
    exact ⟨h1, wFlush_processing_le _ h1⟩
  · intro st d h
    unfold fireTimer
    rw [if_pos h]
    exact ⟨rfl, rfl, rfl⟩
  · intro st t1 t2 hproc hpend _hle
    obtain ⟨pend, proc, s, k⟩ := st
    simp only at hproc hpend
    subst hproc hpend
    simp [wStep, deliverTimer, wFlush, fireTimer]

/-- Witness for C2: a completed cycle followed by one change event yields
exactly one new cycle at the debounce interval after the change. -/
theorem reentrancy_guard_witness :
    ((⟨none, 1, [1000], []⟩ : WState).processing = 1
      ∧ (⟨none, 1, [1000], []⟩ : WState).pending = none
      ∧ 1100 ≤ 1500)
    ∧ (wFlush (List.foldl (wStep 1000) (⟨none, 1, [1000], []⟩ : WState)
          [WEvent.cycleEnd 1100, WEvent.change 1500])).started
        = (⟨none, 1, [1000], []⟩ : WState).started ++ [1500 + 1000]
    ∧ (wFlush (List.foldl (wStep 1000) (⟨none, 1, [1000], []⟩ : WState)
          [WEvent.cycleEnd 1100, WEvent.change 1500])).skipped
        = (⟨none, 1, [1000], []⟩ : WState).skipped :=
  ⟨⟨rfl, rfl, by omega⟩,
   (reentrancy_guard 1000).2.2 ⟨none, 1, [1000], []⟩ 1100 1500 rfl rfl (by omega)⟩

/-- C7 counterexample: in a rebuild cycle triggered by a file change whose
build step fails (nonzero mvn exit code), the CLI process is terminated
with exit code 1 by the error path inside Builder.build, so the failure is
not contained by the watch callback and the session does not keep watching. -/
theorem watch_cycle_build_failure_exits :
    (watchCycle cycleEnvBuildFail "" wInit []).1 = ERes.exited 1 := by
  rfl

/-- C7 (amended): the kill step consumes all of its failures so stop-step
errors never terminate anything, and any exception that reaches the watch
callback is caught and logged without terminating the CLI, with the
processing flag reset so the session returns to Idle; but a failure of the
build, deploy, or restart step reaches the process-exit error path inside
the respective component and terminates the CLI with exit code 1, ending
the watch session. -/
theorem watch_cycle_failure_containment :
    (∀ (sig : Nat → Bool) (procs : List ProcEntry), ∃ r, pmKill sig procs = ERes.ok r)
    ∧ (∀ env : CycleEnv, cycleStopStep env = ERes.ok ())
    ∧ (∀ (st : WState) (log : List String) (m : String),
        callbackGuard (.thrown m) st log
          = (.ok (), { st with processing := st.processing - 1 },
             log ++ ["File watcher error: " ++ m]))
    ∧ (∀ (env : CycleEnv) (opts : String) (st : WState) (log : List String),
        st.processing = 0 → env.mvnExit ≠ 0 →
        (watchCycle env opts st log).1 = ERes.exited 1)
    ∧ (∀ (env : CycleEnv) (opts : String) (st : WState) (log : List String),
        st.processing = 0 → env.mvnExit = 0 → env.copyOk = false →
        (watchCycle env opts st log).1 = ERes.exited 1)
    ∧ (∀ (env : CycleEnv) (opts : String) (st : WState) (log : List String),
        st.processing = 0 → env.mvnExit = 0 → env.copyOk = true →
        (pmRun env.runEnv env.pm opts).1.exitedProcess = true →
        (watchCycle env opts st log).1 = ERes.exited 1)
    ∧ (∀ (env : CycleEnv) (opts : String) (st : WState) (log : List String),
        st.processing = 0 → env.mvnExit = 0 → env.copyOk = true →
        (pmRun env.runEnv env.pm opts).1.exitedProcess = false →
        (watchCycle env opts st log).1 = ERes.ok ()
        ∧ (watchCycle env opts st log).2.1.processing = st.processing) := by
  refine ⟨pmKill_ok, cycleStopStep_ok, ?_, ?_, ?_, ?_, ?_⟩
  · intro st log m; rfl
  · intro env opts st log hp hm
    have hbody : cycleBody env opts = ERes.exited 1 := by
      rw [cycleBody, cycleStopStep_ok]
      simp [ERes.bind, builderBuild, hm]
    simp [watchCycle, hp, hbody, callbackGuard]
  · intro env opts st log hp hm hc
    have hbody : cycleBody env opts = ERes.exited 1 := by
      rw [cycleBody, cycleStopStep_ok]
      simp [ERes.bind, builderBuild, builderDeploy, hm, hc]
    simp [watchCycle, hp, hbody, callbackGuard]
  · intro env opts st log hp hm hc hrun
    have hbody : cycleBody env opts = ERes.exited 1 := by
      rw [cycleBody, cycleStopStep_ok]
      simp [ERes.bind, builderBuild, builderDeploy, pmRunE, hm, hc, hrun]
    simp [watchCycle, hp, hbody, callbackGuard]
  · intro env opts st log hp hm hc hrun
    have hbody : cycleBody env opts = ERes.ok () := by
      rw [cycleBody, cycleStopStep_ok]
      simp [ERes.bind, builderBuild, builderDeploy, pmRunE, hm, hc, hrun]
    refine ⟨?_, ?_⟩
    · simp [watchCycle, hp, hbody, callbackGuard]
    · simp [watchCycle, hp, hbody, callbackGuard]

/-- Witness for the amended C7: a full cycle in which every stop-step signal
throws still completes normally with the processing flag reset. -/
theorem watch_cycle_failure_containment_witness :
    (wInit.processing = 0 ∧ cycleEnvOk.mvnExit = 0 ∧ cycleEnvOk.copyOk = true
      ∧ (pmRun cycleEnvOk.runEnv cycleEnvOk.pm "").1.exitedProcess = false)
    ∧ (watchCycle cycleEnvOk "" wInit []).1 = ERes.ok ()
    ∧ (watchCycle cycleEnvOk "" wInit []).2.1.processing = wInit.processing :=
  ⟨⟨rfl, rfl, rfl, by decide⟩,
   watch_cycle_failure_containment.2.2.2.2.2.2 cycleEnvOk "" wInit []
     rfl rfl rfl (by decide)⟩
